import Mathlib

/-!
Verification of the core patch-injection pipeline of `apkpatcher3.py`.

The program's text surgery works on Python `str` values via `str.find`,
slicing and concatenation.  We embed those strings as `List Char` and give
each Python primitive an executable Lean counterpart with the same
semantics (`find` returning -1 becomes `Option Nat`).  File-system state
touched by the installer components is embedded as the set of existing
file paths, with `os.remove` raising on a missing file modelled by
`Except`.
-/

set_option maxRecDepth 100000

namespace Apkpatcher

/-- Python strings are embedded as lists of characters. -/
abbrev Str := List Char

/-- Scanner behind Python `str.find`: index (counting from `i`) of the first
occurrence of `pat` in `s`, or `none`. -/
def findAux (pat : Str) : Str → Nat → Option Nat
  | [], i => if pat.isPrefixOf ([] : Str) then some i else none
  | c :: rest, i =>
    if pat.isPrefixOf (c :: rest) then some i else findAux pat rest (i + 1)

/-- Python `pat in s` substring test. -/
def containsSub (s pat : Str) : Bool := (findAux pat s 0).isSome

/-- Python `s.find(pat)`; `none` stands for the sentinel -1. -/
def pyFind (s pat : Str) : Option Nat := findAux pat s 0

/-- Python `s.find(pat, a, b)`: the occurrence must lie entirely inside the
slice `s[a:b]`; the returned index is relative to the whole string. -/
def pyFindIn (s pat : Str) (a b : Nat) : Option Nat :=
  (findAux pat ((s.take b).drop a) 0).map (fun k => a + k)

/-- Python `s.find(pat, a)`. -/
def pyFindFrom (s pat : Str) (a : Nat) : Option Nat :=
  (findAux pat (s.drop a) 0).map (fun k => a + k)

/-- Fuel-driven worker for Python `str.replace(old, new)` (all occurrences,
scanned left to right, replacements not rescanned).  The fuel is only there
to make the recursion structural; `replaceAll` supplies enough of it. -/
def replaceAllFuel (old new : Str) : Nat → Str → Str
  | _, [] => []
  | 0, s => s
  | fuel + 1, c :: rest =>
    if old.isPrefixOf (c :: rest) && !old.isEmpty then
      new ++ replaceAllFuel old new fuel (rest.drop (old.length - 1))
    else
      c :: replaceAllFuel old new fuel rest

/-- Python `s.replace(old, new)` for nonempty `old`. -/
def replaceAll (old new s : Str) : Str := replaceAllFuel old new s.length s

/-! ### SmaliInjector: `Patcher.insert_frida_loader` -/

def directMethodsMarker : Str := "# direct methods".toList
def virtualMethodsMarker : Str := "# virtual methods".toList
def clinitMarker : Str := ".method static constructor <clinit>()V".toList
def endMethodMarker : Str := ".end method".toList
def prologueMarker : Str := ".prologue".toList

/-- The literal the already-applied guard greps for (`'frida-gadget' in content`). -/
def fridaGadgetGuard : Str := "frida-gadget".toList

/-- Default value of the `frida_lib_name` parameter. -/
def defaultFridaLibName : Str := "frida-gadget".toList

/-- Text of `partial_injection_code` before the `<LIBFRIDA>` placeholder. -/
def partialPre : Str := "\n    const-string v0, \"".toList

/-- Text of `partial_injection_code` after the `<LIBFRIDA>` placeholder. -/
def partialPost : Str :=
  "\"\n\n    invoke-static \x7bv0\x7d, Ljava/lang/System;->loadLibrary(Ljava/lang/String;)V\n\n        ".toList

/-- `partial_injection_code` with `<LIBFRIDA>` replaced by the library name. -/
def partialInjectionCode (name : Str) : Str := partialPre ++ name ++ partialPost

/-- Text of `full_injection_code` before the `<LIBFRIDA>` placeholder. -/
def fullPre : Str :=
  "\n.method static constructor <clinit>()V\n    .locals 1\n\n    .prologue\n    const-string v0, \"".toList

/-- Text of `full_injection_code` after the `<LIBFRIDA>` placeholder. -/
def fullPost : Str :=
  "\"\n\n    invoke-static \x7bv0\x7d, Ljava/lang/System;->loadLibrary(Ljava/lang/String;)V\n\n    return-void\n.end method\n        ".toList

/-- `full_injection_code` with `<LIBFRIDA>` replaced by the library name. -/
def fullInjectionCode (name : Str) : Str := fullPre ++ name ++ fullPost

/-- Outcome of `insert_frida_loader`; the Python function returns `False`
for every case but `injected` and distinguishes them by printed message. -/
inductive InjectResult where
  | skipped
  | noDirectMethods
  | noConstructorEnd
  | noPrologue
  | injected
  deriving DecidableEq, Repr

/-- `Patcher.insert_frida_loader`: second component is the class text after
the call (the file is rewritten only in the `injected` case). -/
def insert_frida_loader (content fridaLibName : Str) : InjectResult × Str :=
  if containsSub content fridaGadgetGuard then
    (InjectResult.skipped, content)
  else
    match pyFind content directMethodsMarker, pyFind content virtualMethodsMarker with
    | some directMethodsStart, some directMethodsEnd =>
      match pyFindIn content clinitMarker directMethodsStart directMethodsEnd with
      | some ctorStart =>
        match pyFindIn content endMethodMarker ctorStart directMethodsEnd with
        | none => (InjectResult.noConstructorEnd, content)
        | some ctorEnd =>
          match pyFindIn content prologueMarker ctorStart ctorEnd with
          | none => (InjectResult.noPrologue, content)
          | some prologueStart =>
            let prologueEnd := prologueStart + prologueMarker.length + 1
            (InjectResult.injected,
              content.take prologueEnd ++ partialInjectionCode fridaLibName
                ++ content.drop prologueEnd)
      | none =>
        let tmpIndex := directMethodsStart + directMethodsMarker.length + 1
        (InjectResult.injected,
          content.take tmpIndex ++ fullInjectionCode fridaLibName ++ content.drop tmpIndex)
    | _, _ => (InjectResult.noDirectMethods, content)

/-! ### ArchitectureResolver: `Patcher.get_arch_by_gadget` -/

def ARCH_ARM : Str := "arm".toList
def ARCH_ARM64 : Str := "arm64".toList
def ARCH_X86 : Str := "x86".toList
def ARCH_X64 : Str := "x64".toList

/-- `Patcher.get_arch_by_gadget`, with the source's branch order. -/
def get_arch_by_gadget (gadgetPath : Str) : Option Str :=
  if containsSub gadgetPath "arm".toList && !containsSub gadgetPath "64".toList then
    some ARCH_ARM
  else if containsSub gadgetPath "arm64".toList then
    some ARCH_ARM64
  else if containsSub gadgetPath "i386".toList
      || (containsSub gadgetPath "x86".toList && !containsSub gadgetPath "64".toList) then
    some ARCH_X86
  else if containsSub gadgetPath "x86_64".toList then
    some ARCH_X64
  else
    none

/-- The resolution rule exactly as the spec words it (for comparison with
`get_arch_by_gadget`): arm64 first, then arm-without-64, then x86_64, then
i386-or-x86-without-64. -/
def specArchOf (gadgetPath : Str) : Option Str :=
  if containsSub gadgetPath "arm64".toList then
    some ARCH_ARM64
  else if containsSub gadgetPath "arm".toList && !containsSub gadgetPath "64".toList then
    some ARCH_ARM
  else if containsSub gadgetPath "x86_64".toList then
    some ARCH_X64
  else if containsSub gadgetPath "i386".toList
      || (containsSub gadgetPath "x86".toList && !containsSub gadgetPath "64".toList) then
    some ARCH_X86
  else
    none

/-- The resolution rule with the x86 pair in the code's order: the
i386/x86 rule is evaluated before the x86_64 rule. -/
def amendedArchOf (gadgetPath : Str) : Option Str :=
  if containsSub gadgetPath "arm64".toList then
    some ARCH_ARM64
  else if containsSub gadgetPath "arm".toList && !containsSub gadgetPath "64".toList then
    some ARCH_ARM
  else if containsSub gadgetPath "i386".toList
      || (containsSub gadgetPath "x86".toList && !containsSub gadgetPath "64".toList) then
    some ARCH_X86
  else if containsSub gadgetPath "x86_64".toList then
    some ARCH_X64
  else
    none

/-! ### DirectoryPlanner: `Patcher.create_lib_arch_folders` -/

/-- `os.path.join(a, b)` for the relative second components this program uses. -/
def pathJoin (a b : Str) : Str :=
  if a = [] then b
  else if a.getLast? = some '/' then a ++ b
  else a ++ '/' :: b

/-- `Patcher.create_lib_arch_folders`: the list of ABI directories returned
to the caller (directory creation itself is idempotent `os.makedirs`). -/
def create_lib_arch_folders (basePath : Str) (arch : Option Str) : List Str :=
  let libsPath := pathJoin basePath "lib/".toList
  if arch = some ARCH_ARM then
    [pathJoin libsPath "armeabi".toList, pathJoin libsPath "armeabi-v7a".toList]
  else if arch = some ARCH_ARM64 then
    [pathJoin libsPath "arm64-v8a".toList]
  else if arch = some ARCH_X86 then
    [pathJoin libsPath "x86".toList]
  else if arch = some ARCH_X64 then
    [pathJoin libsPath "x86_64".toList]
  else
    []

/-! ### PayloadInstaller: `Patcher.delete_existing_gadget` / `insert_frida_lib`

The mutated tree is embedded as the set of existing file paths.  `os.remove`
raises `FileNotFoundError` on a missing path (`Except.error`), while
`shutil.copyfile` overwrites its target. -/

abbrev FileSys := List Str

def DEFAULT_GADGET_NAME : Str := "libfrida-gadget.so".toList
def DEFAULT_CONFIG_NAME : Str := "libfrida-gadget.config.so".toList
def DEFAULT_HOOKFILE_NAME : Str := "libhook.js.so".toList
def CONFIG_BIT : Nat := 1
def AUTOLOAD_BIT : Nat := 2

/-- `os.path.isfile`. -/
def isfile (fs : FileSys) (p : Str) : Bool := decide (p ∈ fs)

/-- `os.remove`: fails when the path does not exist. -/
def osRemove (fs : FileSys) (p : Str) : Except Unit FileSys :=
  if p ∈ fs then Except.ok (fs.filter (fun q => decide (q ≠ p))) else Except.error ()

/-- `shutil.copyfile` into target path `p` (source contents irrelevant here). -/
def copyfileTo (fs : FileSys) (p : Str) : FileSys := p :: fs.filter (fun q => decide (q ≠ p))

/-- `Patcher.delete_existing_gadget`.  The gadget itself is removed only if
present; when `deleteCustomFiles` is truthy both companion files are removed
unconditionally (the bit mask is never inspected bit by bit). -/
def delete_existing_gadget (fs : FileSys) (archFolder : Str) (deleteCustomFiles : Nat) :
    Except Unit FileSys :=
  let gadgetPath := pathJoin archFolder DEFAULT_GADGET_NAME
  let fs1 := if isfile fs gadgetPath then fs.filter (fun q => decide (q ≠ gadgetPath)) else fs
  if deleteCustomFiles ≠ 0 then
    match osRemove fs1 (pathJoin archFolder DEFAULT_CONFIG_NAME) with
    | Except.error e => Except.error e
    | Except.ok fs2 => osRemove fs2 (pathJoin archFolder DEFAULT_HOOKFILE_NAME)
  else
    Except.ok fs1

/-- Body of the per-folder loop of `Patcher.insert_frida_lib`.  The optional
`config_file_path` / `auto_load_script_path` arguments enter only through
their truthiness, embedded as the two Booleans. -/
def insert_frida_lib_folder (fs : FileSys) (folder : Str) (hasConfig hasAutoload : Bool) :
    Except Unit FileSys :=
  let deleteCustom :=
    if hasConfig && hasAutoload then CONFIG_BIT ||| AUTOLOAD_BIT
    else if hasConfig && !hasAutoload then CONFIG_BIT
    else if hasAutoload && !hasConfig then AUTOLOAD_BIT
    else 0
  match delete_existing_gadget fs folder deleteCustom with
  | Except.error e => Except.error e
  | Except.ok fs1 =>
    let targetGadgetPath := pathJoin folder DEFAULT_GADGET_NAME
    let fs2 := copyfileTo fs1 targetGadgetPath
    let fs3 :=
      if hasConfig then
        copyfileTo fs2 (replaceAll ".so".toList ".config.so".toList targetGadgetPath)
      else fs2
    let fs4 :=
      if hasAutoload then
        copyfileTo fs3 (replaceAll DEFAULT_GADGET_NAME DEFAULT_HOOKFILE_NAME targetGadgetPath)
      else fs3
    Except.ok fs4

/-- The `for folder in arch_folders` loop of `insert_frida_lib`; an exception
raised in one iteration aborts the remaining ones. -/
def installFolders (fs : FileSys) (folders : List Str) (hasConfig hasAutoload : Bool) :
    Except Unit FileSys :=
  match folders with
  | [] => Except.ok fs
  | f :: rest =>
    match insert_frida_lib_folder fs f hasConfig hasAutoload with
    | Except.error e => Except.error e
    | Except.ok fs1 => installFolders fs1 rest hasConfig hasAutoload

/-- `Patcher.insert_frida_lib`: resolves the architecture from the gadget
path, plans the ABI folders, and installs into each in order.  Returns
`(false, fs)` untouched when no folder could be planned. -/
def insert_frida_lib (fs : FileSys) (basePath gadgetPath : Str)
    (hasConfig hasAutoload : Bool) : Except Unit (Bool × FileSys) :=
  let arch := get_arch_by_gadget gadgetPath
  let archFolders := create_lib_arch_folders basePath arch
  if archFolders = [] then
    Except.ok (false, fs)
  else
    match installFolders fs archFolders hasConfig hasAutoload with
    | Except.error e => Except.error e
    | Except.ok fsOut => Except.ok (true, fsOut)

/-! ### ManifestPermissionInjector: `Patcher.inject_permission_manifest` -/

def manifestOpenMarker : Str := "<manifest ".toList

/-- The `<uses-permission .../>` line inserted for a permission name. -/
def permissionTag (permission : Str) : Str :=
  "<uses-permission android:name=\"".toList ++ permission ++ "\"/>".toList

/-- `Patcher.inject_permission_manifest` on the manifest text; `none` means
the function returned `False` without writing the file. -/
def inject_permission_manifest (manifestContent permission : Str) : Option Str :=
  match pyFind manifestContent manifestOpenMarker with
  | none => none
  | some startManifestTag =>
    match pyFindFrom manifestContent ">".toList startManifestTag with
    | none => none
    | some endManifestTag =>
      some (manifestContent.take (endManifestTag + 1)
        ++ '\n' :: "    ".toList ++ permissionTag permission
        ++ manifestContent.drop (endManifestTag + 1))

/-! ### Basic facts about the scanner -/

theorem findAux_isSome_iff (pat : Str) :
    ∀ (s : Str) (i : Nat), (findAux pat s i).isSome = true ↔ pat <:+: s := by
  intro s
  induction s with
  | nil =>
    intro i
    simp only [findAux]
    by_cases hp : pat.isPrefixOf ([] : Str)
    · simp only [hp, if_true, Option.isSome_some, true_iff]
      exact (List.isPrefixOf_iff_prefix.mp hp).isInfix
    · simp only [hp, if_false, Option.isSome_none, false_iff, Bool.false_eq_true]
      intro h
      rw [List.infix_nil] at h
      subst h
      exact hp (by simp [List.isPrefixOf])
  | cons c rest ih =>
    intro i
    simp only [findAux]
    by_cases hp : pat.isPrefixOf (c :: rest)
    · simp only [hp, if_true, Option.isSome_some, true_iff]
      exact (List.isPrefixOf_iff_prefix.mp hp).isInfix
    · rw [if_neg (by simpa using hp)]
      rw [ih (i + 1), List.infix_cons_iff]
      constructor
      · exact Or.inr
      · rintro (h | h)
        · exact absurd (List.isPrefixOf_iff_prefix.mpr h) hp
        · exact h

theorem containsSub_infix_iff (s pat : Str) : containsSub s pat = true ↔ pat <:+: s := by
  unfold containsSub
  exact findAux_isSome_iff pat s 0

theorem infix_middle (b x p q y : Str) : b <:+: x ++ (p ++ b ++ q) ++ y :=
  ⟨x ++ p, q ++ y, by simp⟩

/-! ### Case shape of `insert_frida_loader` -/

theorem insert_skip_of_guard (content name : Str)
    (h : containsSub content fridaGadgetGuard = true) :
    insert_frida_loader content name = (InjectResult.skipped, content) := by
  unfold insert_frida_loader
  simp [h]

theorem insert_frida_loader_shape (content name : Str) :
    (containsSub content fridaGadgetGuard = true ∧
      insert_frida_loader content name = (InjectResult.skipped, content)) ∨
    (containsSub content fridaGadgetGuard = false ∧
      (((insert_frida_loader content name).1 = InjectResult.injected ∧
        ∃ x y, ((insert_frida_loader content name).2 = x ++ partialInjectionCode name ++ y ∨
                (insert_frida_loader content name).2 = x ++ fullInjectionCode name ++ y)) ∨
       ((insert_frida_loader content name).1 ≠ InjectResult.skipped ∧
        (insert_frida_loader content name).1 ≠ InjectResult.injected ∧
        (insert_frida_loader content name).2 = content))) := by
  by_cases hg : containsSub content fridaGadgetGuard
  · exact Or.inl ⟨hg, insert_skip_of_guard content name hg⟩
  · refine Or.inr ⟨by simpa using hg, ?_⟩
    unfold insert_frida_loader
    rw [if_neg (by simp [Bool.not_eq_true] at hg ⊢; exact hg)]
    rcases hd : pyFind content directMethodsMarker with _ | d <;>
      rcases he : pyFind content virtualMethodsMarker with _ | e
    · exact Or.inr (by simp)
    · exact Or.inr (by simp)
    · exact Or.inr (by simp)
    · rcases hc : pyFindIn content clinitMarker d e with _ | c
      · exact Or.inl ⟨by simp [hc], ⟨content.take (d + directMethodsMarker.length + 1),
          content.drop (d + directMethodsMarker.length + 1), Or.inr (by simp [hc])⟩⟩
      · rcases hm : pyFindIn content endMethodMarker c e with _ | m
        · exact Or.inr (by simp [hc, hm])
        · rcases hp : pyFindIn content prologueMarker c m with _ | p
          · exact Or.inr (by simp [hc, hm, hp])
          · exact Or.inl ⟨by simp [hc, hm, hp], ⟨content.take (p + prologueMarker.length + 1),
              content.drop (p + prologueMarker.length + 1), Or.inl (by simp [hc, hm, hp])⟩⟩

/-! ### C1: idempotence of the injector -/

/-- A well-formed class source with an existing static initializer and no
occurrence of the guard literal `frida-gadget`. -/
def exC1 : Str :=
  "# direct methods\n.method static constructor <clinit>()V\n    .prologue\n    return-void\n.end method\n# virtual methods\n".toList

/-- C1, counterexample: with library name `mylib` the second application is
not a no-op — the guard greps for the literal `frida-gadget`, which the first
injection did not introduce, so the loader is injected a second time and the
text changes again. -/
theorem insert_frida_loader_not_idempotent :
    (insert_frida_loader exC1 "mylib".toList).1 = InjectResult.injected ∧
    (insert_frida_loader (insert_frida_loader exC1 "mylib".toList).2 "mylib".toList).1
      = InjectResult.injected ∧
    (insert_frida_loader (insert_frida_loader exC1 "mylib".toList).2 "mylib".toList).2
      ≠ (insert_frida_loader exC1 "mylib".toList).2 := by decide

/-- C1 (amended): for a library name that contains the guard literal
`frida-gadget` (in particular the default name), whenever the first
application injected or skipped, the second application with the same name
returns the skip result ("already applied") and leaves the text unchanged
from the first call's output. -/
theorem insert_frida_loader_idempotent (content name : Str)
    (hname : fridaGadgetGuard <:+: name)
    (h1 : (insert_frida_loader content name).1 = InjectResult.injected ∨
          (insert_frida_loader content name).1 = InjectResult.skipped) :
    insert_frida_loader (insert_frida_loader content name).2 name
      = (InjectResult.skipped, (insert_frida_loader content name).2) := by
  rcases insert_frida_loader_shape content name with ⟨hg, hres⟩ | ⟨_, hinj | hother⟩
  · rw [hres]
    exact insert_skip_of_guard content name hg
  · obtain ⟨_, x, y, hxy | hxy⟩ := hinj
    · apply insert_skip_of_guard
      rw [containsSub_infix_iff, hxy]
      exact hname.trans
        (by unfold partialInjectionCode; exact infix_middle name x partialPre partialPost y)
    · apply insert_skip_of_guard
      rw [containsSub_infix_iff, hxy]
      exact hname.trans
        (by unfold fullInjectionCode; exact infix_middle name x fullPre fullPost y)
  · rcases h1 with h1 | h1
    · exact absurd h1 hother.2.1
    · exact absurd h1 hother.1

/-- C1 witness: concrete run with the default library name. -/
theorem insert_frida_loader_idempotent_witness :
    insert_frida_loader (insert_frida_loader exC1 defaultFridaLibName).2 defaultFridaLibName
      = (InjectResult.skipped, (insert_frida_loader exC1 defaultFridaLibName).2) :=
  insert_frida_loader_idempotent exC1 defaultFridaLibName (by decide) (Or.inl (by decide))

/-! ### C2: partial injection into an existing static initializer -/

theorem infix_append_left (pat a b : Str) (h : pat <:+: b) : pat <:+: a ++ b := by
  obtain ⟨s, t, rfl⟩ := h
  exact ⟨a ++ s, t, by simp⟩

/-- C2 (amended): when the class text does not already contain the guard
literal `frida-gadget` and the section markers, the static initializer, its
end marker and its prologue marker are all found, the injector splices the
partial snippet at the fixed offset `p + 10` — one character past the end of
the `.prologue` marker found at `p`, i.e. immediately after the marker's
trailing newline — and the output is exactly original-prefix ++ snippet ++
original-suffix.  The snippet is a `const-string v0` declaration holding the
library-name literal followed by the static `loadLibrary` call on `v0`. -/
theorem insert_partial_injection (content name : Str) (d e c m p : Nat)
    (hg : containsSub content fridaGadgetGuard = false)
    (hd : pyFind content directMethodsMarker = some d)
    (he : pyFind content virtualMethodsMarker = some e)
    (hc : pyFindIn content clinitMarker d e = some c)
    (hm : pyFindIn content endMethodMarker c e = some m)
    (hp : pyFindIn content prologueMarker c m = some p) :
    insert_frida_loader content name
      = (InjectResult.injected,
         content.take (p + 10) ++ partialInjectionCode name ++ content.drop (p + 10)) ∧
    ("const-string v0, \"".toList ++ name ++ "\"".toList) <:+: partialInjectionCode name ∧
    "invoke-static \x7bv0\x7d, Ljava/lang/System;->loadLibrary(Ljava/lang/String;)V".toList
      <:+: partialInjectionCode name := by
  refine ⟨?_, ?_, ?_⟩
  · unfold insert_frida_loader
    rw [if_neg (by simp [hg])]
    simp only [hd, he, hc, hm, hp]
    have h9 : prologueMarker.length = 9 := by decide
    rw [h9]
  · have h1 : partialPre = "\n    ".toList ++ "const-string v0, \"".toList := by decide
    have h2 : partialPost = "\"".toList
        ++ "\n\n    invoke-static \x7bv0\x7d, Ljava/lang/System;->loadLibrary(Ljava/lang/String;)V\n\n        ".toList := by
      decide
    refine ⟨"\n    ".toList,
      "\n\n    invoke-static \x7bv0\x7d, Ljava/lang/System;->loadLibrary(Ljava/lang/String;)V\n\n        ".toList, ?_⟩
    unfold partialInjectionCode
    rw [h1, h2]
    simp [List.append_assoc]
  · unfold partialInjectionCode
    exact infix_append_left _ (partialPre ++ name) _ (by decide)

/-- A class source satisfying every structural premise of C2 whose text also
mentions `frida-gadget` in a comment. -/
def exC2g : Str :=
  "# frida-gadget used here\n# direct methods\n.method static constructor <clinit>()V\n    .prologue\n    return-void\n.end method\n# virtual methods\n".toList

/-- C2, counterexample: this class source contains both section markers, a
static initializer with its end marker and a `.prologue` marker, yet the
injector inserts nothing (the coarse guard trips on the comment), so the
output is not prefix ++ snippet ++ suffix. -/
theorem insert_partial_injection_counterexample :
    pyFind exC2g directMethodsMarker = some 25 ∧
    pyFind exC2g virtualMethodsMarker = some 123 ∧
    pyFindIn exC2g clinitMarker 25 123 = some 42 ∧
    pyFindIn exC2g endMethodMarker 42 123 = some 111 ∧
    pyFindIn exC2g prologueMarker 42 111 = some 85 ∧
    insert_frida_loader exC2g "mylib".toList = (InjectResult.skipped, exC2g) ∧
    containsSub exC2g "const-string".toList = false := by decide

/-- The class source used to witness C2's amended theorem. -/
def exC2 : Str :=
  "# direct methods\n.method static constructor <clinit>()V\n    .prologue\n    .locals 2\n    foo\n.end method\n# virtual methods\n".toList

/-- C2 witness: concrete run on a class whose prologue is followed by
`.locals 2` and further code. -/
theorem insert_partial_injection_witness :
    insert_frida_loader exC2 "mylib".toList
      = (InjectResult.injected,
         exC2.take 70 ++ partialInjectionCode "mylib".toList ++ exC2.drop 70) :=
  (insert_partial_injection exC2 "mylib".toList 0 104 17 92 60
    (by decide) (by decide) (by decide) (by decide) (by decide) (by decide)).1

/-! ### C3: full injection when no static initializer exists -/

/-- C3 (amended): when the class text does not already contain the guard
literal `frida-gadget`, both section markers are found and no static
initializer occurs between them, injecting `mylib` splices the full
method block at the fixed offset `d + 17` — one character past the end of
the `# direct methods` marker found at `d`, i.e. immediately after the
marker's trailing newline — preserving all original text, and the block is
framed by the method-start/`.end method` markers and contains `.locals 1`,
a synthesized `.prologue`, the string constant `"mylib"`, the static
`loadLibrary` call and `return-void`. -/
theorem insert_full_injection (content : Str) (d e : Nat)
    (hg : containsSub content fridaGadgetGuard = false)
    (hd : pyFind content directMethodsMarker = some d)
    (he : pyFind content virtualMethodsMarker = some e)
    (hc : pyFindIn content clinitMarker d e = none) :
    insert_frida_loader content "mylib".toList
      = (InjectResult.injected,
         content.take (d + 17) ++ fullInjectionCode "mylib".toList ++ content.drop (d + 17)) ∧
    clinitMarker <:+: fullInjectionCode "mylib".toList ∧
    endMethodMarker <:+: fullInjectionCode "mylib".toList ∧
    "    .locals 1\n".toList <:+: fullInjectionCode "mylib".toList ∧
    prologueMarker <:+: fullInjectionCode "mylib".toList ∧
    "const-string v0, \"mylib\"".toList <:+: fullInjectionCode "mylib".toList ∧
    "invoke-static \x7bv0\x7d, Ljava/lang/System;->loadLibrary(Ljava/lang/String;)V".toList
      <:+: fullInjectionCode "mylib".toList ∧
    "return-void".toList <:+: fullInjectionCode "mylib".toList := by
  refine ⟨?_, by decide, by decide, by decide, by decide, by decide, by decide, by decide⟩
  unfold insert_frida_loader
  rw [if_neg (by simp [hg])]
  simp only [hd, he, hc]
  have h16 : directMethodsMarker.length = 16 := by decide
  rw [h16]

/-- A class source satisfying every structural premise of C3 whose text also
mentions `frida-gadget` in a comment. -/
def exC3g : Str := "# frida-gadget\n# direct methods\nfoo\n# virtual methods\n".toList

/-- C3, counterexample: both section markers are present and no static
initializer occurs between them, yet nothing is spliced in — the coarse
guard trips on the comment and the text is returned unchanged, with no new
method block. -/
theorem insert_full_injection_counterexample :
    pyFind exC3g directMethodsMarker = some 15 ∧
    pyFind exC3g virtualMethodsMarker = some 36 ∧
    pyFindIn exC3g clinitMarker 15 36 = none ∧
    insert_frida_loader exC3g "mylib".toList = (InjectResult.skipped, exC3g) ∧
    containsSub exC3g ".locals 1".toList = false := by decide

/-- The class source used to witness C3's amended theorem. -/
def exC3 : Str := "# direct methods\nfoo bar\n# virtual methods\n".toList

/-- C3 witness: concrete run on a class with no static initializer. -/
theorem insert_full_injection_witness :
    insert_frida_loader exC3 "mylib".toList
      = (InjectResult.injected,
         exC3.take 17 ++ fullInjectionCode "mylib".toList ++ exC3.drop 17) :=
  (insert_full_injection exC3 0 25 (by decide) (by decide) (by decide) (by decide)).1

/-! ### C4: structural failure cases of the injector -/

/-- C4: on class texts where the already-applied guard does not fire (the
source checks that guard first), the injector fails with the corresponding
structural error and performs no injection whenever (a) either section
marker is absent, (b) the static initializer is found between the markers
but no `.end method` occurs between its start and the virtual-methods
marker, or (c) no `.prologue` occurs between the initializer's start and
its end marker; the returned text is the unchanged input in all cases. -/
theorem insert_frida_loader_structural_errors (content name : Str)
    (hg : containsSub content fridaGadgetGuard = false) :
    ((pyFind content directMethodsMarker = none ∨ pyFind content virtualMethodsMarker = none) →
      insert_frida_loader content name = (InjectResult.noDirectMethods, content)) ∧
    (∀ d e c, pyFind content directMethodsMarker = some d →
      pyFind content virtualMethodsMarker = some e →
      pyFindIn content clinitMarker d e = some c →
      pyFindIn content endMethodMarker c e = none →
      insert_frida_loader content name = (InjectResult.noConstructorEnd, content)) ∧
    (∀ d e c m, pyFind content directMethodsMarker = some d →
      pyFind content virtualMethodsMarker = some e →
      pyFindIn content clinitMarker d e = some c →
      pyFindIn content endMethodMarker c e = some m →
      pyFindIn content prologueMarker c m = none →
      insert_frida_loader content name = (InjectResult.noPrologue, content)) := by
  refine ⟨?_, ?_, ?_⟩
  · intro h
    unfold insert_frida_loader
    rw [if_neg (by simp [hg])]
    rcases hd : pyFind content directMethodsMarker with _ | d <;>
      rcases he : pyFind content virtualMethodsMarker with _ | e <;>
        simp only [hd, he]
    rcases h with h | h
    · rw [hd] at h
      exact absurd h (by simp)
    · rw [he] at h
      exact absurd h (by simp)
  · intro d e c hd he hc hm
    unfold insert_frida_loader
    rw [if_neg (by simp [hg])]
    simp only [hd, he, hc, hm]
  · intro d e c m hd he hc hm hp
    unfold insert_frida_loader
    rw [if_neg (by simp [hg])]
    simp only [hd, he, hc, hm, hp]

/-- Class source missing both section markers. -/
def exC4a : Str := "just some text\n".toList

/-- Class source whose initializer has no `.end method` before the
virtual-methods marker. -/
def exC4b : Str :=
  "# direct methods\n.method static constructor <clinit>()V\n    .prologue\n# virtual methods\n".toList

/-- Class source whose initializer has no `.prologue`. -/
def exC4c : Str :=
  "# direct methods\n.method static constructor <clinit>()V\n    code\n.end method\n# virtual methods\n".toList

/-- C4 witness: all three failure cases at concrete inputs. -/
theorem insert_frida_loader_structural_errors_witness :
    insert_frida_loader exC4a "mylib".toList = (InjectResult.noDirectMethods, exC4a) ∧
    insert_frida_loader exC4b "mylib".toList = (InjectResult.noConstructorEnd, exC4b) ∧
    insert_frida_loader exC4c "mylib".toList = (InjectResult.noPrologue, exC4c) :=
  ⟨(insert_frida_loader_structural_errors exC4a "mylib".toList (by decide)).1
      (Or.inl (by decide)),
   (insert_frida_loader_structural_errors exC4b "mylib".toList (by decide)).2.1
      0 70 17 (by decide) (by decide) (by decide) (by decide),
   (insert_frida_loader_structural_errors exC4c "mylib".toList (by decide)).2.2
      0 77 17 65 (by decide) (by decide) (by decide) (by decide) (by decide)⟩

/-! ### C5: architecture resolution -/

theorem containsSub_mono (s pat1 pat2 : Str) (hsub : pat1 <:+: pat2)
    (h : containsSub s pat2 = true) : containsSub s pat1 = true := by
  rw [containsSub_infix_iff] at *
  exact hsub.trans h

/-- C5, counterexample: on a payload name containing both `i386` and
`x86_64` the code resolves x86 (its i386/x86 branch precedes the x86_64
branch) while the spec's precedence rule resolves x86_64. -/
theorem get_arch_by_gadget_spec_counterexample :
    get_arch_by_gadget "frida-gadget-i386-x86_64.so".toList = some ARCH_X86 ∧
    specArchOf "frida-gadget-i386-x86_64.so".toList = some ARCH_X64 ∧
    ARCH_X86 ≠ ARCH_X64 := by decide

/-- C5 (amended): for every payload name, `get_arch_by_gadget` returns
exactly the architecture of the spec's first-match-wins rule with the two
x86 rules swapped: arm64 → arm64; arm without 64 → arm32; i386, or x86
without 64 → x86; x86_64 → x86_64; otherwise unknown.  (The arm pair is
order-independent; the swap matters only for names containing both `i386`
and `x86_64`.) -/
theorem get_arch_by_gadget_amended (gadgetPath : Str) :
    get_arch_by_gadget gadgetPath = amendedArchOf gadgetPath := by
  unfold get_arch_by_gadget amendedArchOf
  by_cases hA64 : containsSub gadgetPath "arm64".toList = true
  · have h64 : containsSub gadgetPath "64".toList = true :=
      containsSub_mono _ _ _ (by decide) hA64
    simp only [hA64, h64]
    simp
  · rw [Bool.not_eq_true] at hA64
    simp only [hA64]
    simp

/-! ### C6: directory planning -/

/-- C6: for every tree root, planning for arm32 yields exactly the two
directories `armeabi` and `armeabi-v7a` under the library root; arm64, x86
and x86_64 yield exactly the single directory `arm64-v8a`, `x86`, `x86_64`
respectively; any other architecture value yields the empty list. -/
theorem create_lib_arch_folders_plan (basePath : Str) :
    create_lib_arch_folders basePath (some ARCH_ARM)
      = [pathJoin (pathJoin basePath "lib/".toList) "armeabi".toList,
         pathJoin (pathJoin basePath "lib/".toList) "armeabi-v7a".toList] ∧
    create_lib_arch_folders basePath (some ARCH_ARM64)
      = [pathJoin (pathJoin basePath "lib/".toList) "arm64-v8a".toList] ∧
    create_lib_arch_folders basePath (some ARCH_X86)
      = [pathJoin (pathJoin basePath "lib/".toList) "x86".toList] ∧
    create_lib_arch_folders basePath (some ARCH_X64)
      = [pathJoin (pathJoin basePath "lib/".toList) "x86_64".toList] ∧
    (∀ arch : Option Str, arch ≠ some ARCH_ARM → arch ≠ some ARCH_ARM64 →
      arch ≠ some ARCH_X86 → arch ≠ some ARCH_X64 →
      create_lib_arch_folders basePath arch = []) := by
  refine ⟨?_, ?_, ?_, ?_, ?_⟩
  · simp [create_lib_arch_folders, ARCH_ARM, ARCH_ARM64, ARCH_X86, ARCH_X64]
  · simp [create_lib_arch_folders, ARCH_ARM, ARCH_ARM64, ARCH_X86, ARCH_X64]
  · simp [create_lib_arch_folders, ARCH_ARM, ARCH_ARM64, ARCH_X86, ARCH_X64]
  · simp [create_lib_arch_folders, ARCH_ARM, ARCH_ARM64, ARCH_X86, ARCH_X64]
  · intro arch h1 h2 h3 h4
    simp only [create_lib_arch_folders]
    rw [if_neg h1, if_neg h2, if_neg h3, if_neg h4]

/-- C6 witness: a concrete root, with an unknown architecture yielding the
empty plan and arm32 yielding its two directories. -/
theorem create_lib_arch_folders_plan_witness :
    create_lib_arch_folders "/app".toList (some "mips".toList) = [] ∧
    create_lib_arch_folders "/app".toList (some ARCH_ARM)
      = ["/app/lib/armeabi".toList, "/app/lib/armeabi-v7a".toList] := by
  constructor
  · exact (create_lib_arch_folders_plan "/app".toList).2.2.2.2 (some "mips".toList)
      (by decide) (by decide) (by decide) (by decide)
  · rw [(create_lib_arch_folders_plan "/app".toList).1]
    decide

/-! ### C7: independent companion removal (the claim is what the source
intended — the bit constants exist for it — but `delete_existing_gadget`
never inspects the mask and removes both companions) -/

/-- Architecture folder used for the C7 run. -/
def exC7Folder : Str := "/app/lib/x86".toList

/-- Pre-state: gadget and both companions previously installed. -/
def exC7Fs : FileSys :=
  [pathJoin exC7Folder DEFAULT_GADGET_NAME,
   pathJoin exC7Folder DEFAULT_CONFIG_NAME,
   pathJoin exC7Folder DEFAULT_HOOKFILE_NAME]

/-- C7: evaluating `insert_frida_lib` with a config path supplied and no
auto-load path on a folder holding both previously installed companions —
the previously installed auto-load companion is removed as well (and never
re-copied), contradicting the claimed independent, config-only removal. -/
theorem insert_frida_lib_removes_autoload_companion :
    pathJoin exC7Folder DEFAULT_HOOKFILE_NAME ∈ exC7Fs ∧
    ((insert_frida_lib exC7Fs "/app".toList "frida-x86.so".toList true false).map
        (fun r => (r.1, decide (pathJoin exC7Folder DEFAULT_HOOKFILE_NAME ∈ r.2)))).toOption
      = some (true, false) := by decide

/-! ### C9: the removal step demands both companions exist -/

theorem osRemove_not_mem (fs : FileSys) (p : Str) (h : p ∉ fs) :
    osRemove fs p = Except.error () := by
  unfold osRemove
  rw [if_neg h]

theorem osRemove_mem (fs : FileSys) (p : Str) (h : p ∈ fs) :
    osRemove fs p = Except.ok (fs.filter (fun q => decide (q ≠ p))) := by
  unfold osRemove
  rw [if_pos h]

theorem delete_existing_gadget_error (fs : FileSys) (f : Str) (n : Nat) (hn : n ≠ 0)
    (hmiss : pathJoin f DEFAULT_CONFIG_NAME ∉ fs ∨ pathJoin f DEFAULT_HOOKFILE_NAME ∉ fs) :
    delete_existing_gadget fs f n = Except.error () := by
  simp only [delete_existing_gadget]
  rw [if_pos hn]
  have hsub : ∀ r : Str, r ∉ fs →
      r ∉ (if isfile fs (pathJoin f DEFAULT_GADGET_NAME) then
            fs.filter (fun q => decide (q ≠ pathJoin f DEFAULT_GADGET_NAME)) else fs) := by
    intro r hr
    split
    · intro hmem
      exact hr (List.mem_filter.mp hmem).1
    · exact hr
  rcases hmiss with h | h
  · have hc := hsub _ h
    rw [osRemove_not_mem _ _ hc]
  · by_cases hc : pathJoin f DEFAULT_CONFIG_NAME ∈
        (if isfile fs (pathJoin f DEFAULT_GADGET_NAME) then
          fs.filter (fun q => decide (q ≠ pathJoin f DEFAULT_GADGET_NAME)) else fs)
    · have hh : pathJoin f DEFAULT_HOOKFILE_NAME ∉
          ((if isfile fs (pathJoin f DEFAULT_GADGET_NAME) then
            fs.filter (fun q => decide (q ≠ pathJoin f DEFAULT_GADGET_NAME)) else fs).filter
            (fun q => decide (q ≠ pathJoin f DEFAULT_CONFIG_NAME))) := by
        intro hmem
        exact hsub _ h (List.mem_filter.mp hmem).1
      simp only [osRemove_mem _ _ hc, osRemove_not_mem _ _ hh]
    · rw [osRemove_not_mem _ _ hc]

/-- C9 (implicit): whenever at least one companion path is supplied and the
first planned architecture folder does not already contain both previously
installed companion files, the run fails with the file-not-found error
before any copy — in particular on a fresh tree that never had companions
installed. -/
theorem insert_frida_lib_error_on_missing_companions
    (fs : FileSys) (basePath gadgetPath : Str) (hasConfig hasAutoload : Bool)
    (hsup : hasConfig = true ∨ hasAutoload = true)
    (f : Str) (rest : List Str)
    (hfold : create_lib_arch_folders basePath (get_arch_by_gadget gadgetPath) = f :: rest)
    (hmiss : pathJoin f DEFAULT_CONFIG_NAME ∉ fs ∨ pathJoin f DEFAULT_HOOKFILE_NAME ∉ fs) :
    insert_frida_lib fs basePath gadgetPath hasConfig hasAutoload = Except.error () := by
  simp only [insert_frida_lib]
  rw [hfold]
  rw [if_neg (by simp)]
  have hstep : insert_frida_lib_folder fs f hasConfig hasAutoload = Except.error () := by
    simp only [insert_frida_lib_folder]
    have hn : (if hasConfig && hasAutoload then CONFIG_BIT ||| AUTOLOAD_BIT
               else if hasConfig && !hasAutoload then CONFIG_BIT
               else if hasAutoload && !hasConfig then AUTOLOAD_BIT
               else 0) ≠ 0 := by
      rcases hsup with h | h <;> cases hasConfig <;> cases hasAutoload <;>
        simp_all [CONFIG_BIT, AUTOLOAD_BIT]
    rw [delete_existing_gadget_error fs f _ hn hmiss]
  have hif : installFolders fs (f :: rest) hasConfig hasAutoload = Except.error () := by
    simp only [installFolders, hstep]
  rw [hif]

/-- C9 witness: a fresh tree with no installed files at all. -/
theorem insert_frida_lib_error_witness :
    insert_frida_lib [] "/app".toList "frida-x86.so".toList true false = Except.error () :=
  insert_frida_lib_error_on_missing_companions [] "/app".toList "frida-x86.so".toList
    true false (Or.inl rfl) "/app/lib/x86".toList [] (by decide) (Or.inl (by decide))

/-! ### C8: manifest permission injection -/

/-- C8: for every manifest text, when the `<manifest ` opening tag is found
at `s` and its closing `>` is found at `e`, exactly one permission
declaration line (newline, indent, `<uses-permission android:name="..."/>`)
is inserted immediately after that closing bracket and everything before and
after is preserved verbatim; when either marker is absent the function fails
and the text is not modified (no output is written). -/
theorem inject_permission_manifest_spec (manifestContent permission : Str) :
    (∀ s e, pyFind manifestContent manifestOpenMarker = some s →
      pyFindFrom manifestContent ">".toList s = some e →
      inject_permission_manifest manifestContent permission
        = some (manifestContent.take (e + 1)
            ++ '\n' :: "    ".toList ++ permissionTag permission
            ++ manifestContent.drop (e + 1))) ∧
    (pyFind manifestContent manifestOpenMarker = none →
      inject_permission_manifest manifestContent permission = none) ∧
    (∀ s, pyFind manifestContent manifestOpenMarker = some s →
      pyFindFrom manifestContent ">".toList s = none →
      inject_permission_manifest manifestContent permission = none) := by
  refine ⟨?_, ?_, ?_⟩
  · intro s e hs he
    unfold inject_permission_manifest
    simp only [hs, he]
  · intro h
    unfold inject_permission_manifest
    simp only [h]
  · intro s hs he
    unfold inject_permission_manifest
    simp only [hs, he]

/-- The manifest text used to witness C8. -/
def exC8 : Str :=
  "<manifest xmlns:android=\"http://schemas.android.com/apk/res/android\">\n<application/>\n</manifest>\n".toList

/-- C8 witness: concrete manifest with the INTERNET permission injected
right after the root tag's closing bracket. -/
theorem inject_permission_manifest_witness :
    inject_permission_manifest exC8 "android.permission.INTERNET".toList
      = some (exC8.take 69 ++ '\n' :: "    ".toList
          ++ permissionTag "android.permission.INTERNET".toList ++ exC8.drop 69) :=
  (inject_permission_manifest_spec exC8 "android.permission.INTERNET".toList).1 0 68
    (by decide) (by decide)

/-! ### Facts about `replaceAll`, needed for the installer's target names -/

theorem replaceAllFuel_irrel (old new : Str) :
    ∀ (f1 : Nat) (s : Str) (f2 : Nat), s.length ≤ f1 → s.length ≤ f2 →
      replaceAllFuel old new f1 s = replaceAllFuel old new f2 s := by
  intro f1
  induction f1 with
  | zero =>
    intro s f2 h1 _
    have hs : s = [] := List.eq_nil_of_length_eq_zero (Nat.le_zero.mp h1)
    subst hs
    cases f2 <;> rfl
  | succ n ih =>
    intro s f2 h1 h2
    cases s with
    | nil => cases f2 <;> rfl
    | cons c rest =>
      cases f2 with
      | zero => exact absurd h2 (by simp)
      | succ m =>
        have hr1 : rest.length ≤ n := by
          simpa using h1
        have hr2 : rest.length ≤ m := by
          simpa using h2
        have hd : (rest.drop (old.length - 1)).length ≤ rest.length := by
          rw [List.length_drop]
          omega
        simp only [replaceAllFuel]
        by_cases hp : (old.isPrefixOf (c :: rest) && !old.isEmpty) = true
        · rw [if_pos hp, if_pos hp]
          exact congrArg (new ++ ·)
            (ih _ m (le_trans hd hr1) (le_trans hd hr2))
        · rw [if_neg hp, if_neg hp]
          exact congrArg (c :: ·) (ih _ m hr1 hr2)

theorem replaceAll_cons_pos (old new : Str) (c : Char) (rest : Str)
    (hold : old ≠ []) (hp : old <+: c :: rest) :
    replaceAll old new (c :: rest)
      = new ++ replaceAll old new (rest.drop (old.length - 1)) := by
  have hb : (old.isPrefixOf (c :: rest) && !old.isEmpty) = true := by
    rcases old with _ | ⟨o, old'⟩
    · exact absurd rfl hold
    · simp [List.isPrefixOf_iff_prefix, hp, List.isEmpty]
  unfold replaceAll
  simp only [List.length_cons, replaceAllFuel, hb, if_true]
  exact congrArg (new ++ ·) (replaceAllFuel_irrel old new _ _ _
    (by rw [List.length_drop]; omega) le_rfl)

theorem replaceAll_cons_neg (old new : Str) (c : Char) (rest : Str)
    (h : ¬ old <+: c :: rest) :
    replaceAll old new (c :: rest) = c :: replaceAll old new rest := by
  have hb : (old.isPrefixOf (c :: rest) && !old.isEmpty) = false := by
    simp only [Bool.and_eq_false_iff]
    left
    exact Bool.eq_false_iff.mpr (fun hb => h (List.isPrefixOf_iff_prefix.mp hb))
  unfold replaceAll
  simp only [List.length_cons, replaceAllFuel]
  rw [if_neg (by simp [hb])]

theorem prefix_append_cases (pat a b : Str) (h : pat <+: a ++ b) :
    pat <+: a ∨ ∃ s2, s2 <+: b ∧ pat = a ++ s2 := by
  obtain ⟨t, ht⟩ := h
  rcases List.append_eq_append_iff.mp ht with ⟨a', ha, _⟩ | ⟨c', hc, hb⟩
  · exact Or.inl ⟨a', ha.symm⟩
  · exact Or.inr ⟨c', ⟨t, hb.symm⟩, hc⟩

theorem replaceAll_slash_cons (old new : Str) (hold : old ≠ []) (hs : '/' ∉ old)
    (b : Str) : replaceAll old new ('/' :: b) = '/' :: replaceAll old new b := by
  apply replaceAll_cons_neg
  intro hp
  rcases old with _ | ⟨o, old'⟩
  · exact hold rfl
  · have := (List.cons_prefix_cons.mp hp).1
    exact hs (this ▸ List.mem_cons_self o old')

theorem replaceAll_append_slash (old new : Str) (hold : old ≠ []) (hs : '/' ∉ old) :
    ∀ (n : Nat) (a b : Str), a.length ≤ n →
      replaceAll old new (a ++ '/' :: b)
        = replaceAll old new a ++ '/' :: replaceAll old new b := by
  intro n
  induction n with
  | zero =>
    intro a b h
    have ha : a = [] := List.eq_nil_of_length_eq_zero (Nat.le_zero.mp h)
    subst ha
    simpa using replaceAll_slash_cons old new hold hs b
  | succ n ih =>
    intro a b h
    cases a with
    | nil => simpa using replaceAll_slash_cons old new hold hs b
    | cons c a' =>
      have hlen : a'.length ≤ n := by simpa using h
      rw [List.cons_append]
      by_cases hp : old <+: c :: (a' ++ '/' :: b)
      · rcases prefix_append_cases old (c :: a') ('/' :: b) (by simpa using hp)
          with hpa | ⟨s2, hs2, hpe⟩
        · have hk : old.length - 1 ≤ a'.length := by
            have := hpa.length_le
            simp at this
            omega
          rw [replaceAll_cons_pos old new c (a' ++ '/' :: b) hold hp,
            replaceAll_cons_pos old new c a' hold hpa]
          rw [List.drop_append_eq_append_drop]
          have hz : old.length - 1 - a'.length = 0 := by omega
          rw [hz, List.drop_zero]
          have hd : (a'.drop (old.length - 1)).length ≤ n := by
            rw [List.length_drop]
            omega
          rw [ih _ b hd]
          simp
        · cases s2 with
          | nil =>
            have hoe : old = c :: a' := by simpa using hpe
            rw [replaceAll_cons_pos old new c (a' ++ '/' :: b) hold hp,
              replaceAll_cons_pos old new c a' hold (hoe ▸ List.prefix_refl old)]
            have hlenold : old.length - 1 = a'.length := by
              rw [hoe]
              simp
            rw [hlenold, List.drop_append_eq_append_drop, List.drop_length]
            simp only [Nat.sub_self, List.drop_zero, List.nil_append]
            rw [replaceAll_slash_cons old new hold hs b]
            simp [replaceAll]
            rfl
          | cons d s2' =>
            have hd : d = '/' := (List.cons_prefix_cons.mp hs2).1
            subst hd
            rw [hpe] at hs
            exact absurd (List.mem_append_right (c :: a') (List.mem_cons_self _ _)) hs
      · have hna : ¬ old <+: c :: a' := by
          intro hc
          exact hp (by simpa using hc.trans (List.prefix_append (c :: a') ('/' :: b)))
        rw [replaceAll_cons_neg old new c (a' ++ '/' :: b) hp,
          replaceAll_cons_neg old new c a' hna, ih a' b hlen]
        rfl

theorem replaceAll_eq_self (old new s : Str) (h : ¬ old <:+: s) :
    replaceAll old new s = s := by
  induction s with
  | nil => rfl
  | cons c rest ih =>
    have hp : ¬ old <+: c :: rest := fun hc => h hc.isInfix
    rw [replaceAll_cons_neg old new c rest hp, ih (fun hi => h (List.infix_cons hi))]

/-! ### Facts about paths and the file-system model -/

theorem append_slash_ne (s t : Str) (hs : '/' ∉ s) (ht : '/' ∉ t) (hst : s ≠ t) :
    ∀ (a b : Str), a ++ '/' :: s ≠ b ++ '/' :: t := by
  intro a
  induction a with
  | nil =>
    intro b heq
    cases b with
    | nil =>
      simp only [List.nil_append] at heq
      injection heq with _ h2
      exact hst h2
    | cons d b' =>
      simp only [List.nil_append, List.cons_append] at heq
      injection heq with _ h2
      exact hs (h2 ▸ List.mem_append_right b' (List.mem_cons_self '/' t))
  | cons c a' ih =>
    intro b heq
    cases b with
    | nil =>
      simp only [List.nil_append, List.cons_append] at heq
      injection heq with _ h2
      exact ht (h2.symm ▸ List.mem_append_right a' (List.mem_cons_self '/' s))
    | cons d b' =>
      simp only [List.cons_append] at heq
      injection heq with _ h2
      exact ih b' h2

theorem getLast?_append_of_ne_nil (a b : Str) (hb : b ≠ []) :
    (a ++ b).getLast? = b.getLast? := by
  rw [List.getLast?_append]
  obtain ⟨x, hx⟩ := Option.isSome_iff_exists.mp (List.getLast?_isSome.mpr hb)
  rw [hx]
  rfl

theorem pathJoin_eq_append (f s : Str) (h1 : f ≠ []) (h2 : f.getLast? ≠ some '/') :
    pathJoin f s = f ++ '/' :: s := by
  unfold pathJoin
  rw [if_neg h1, if_neg h2]

theorem pathJoin_ne_nil (libs abi : Str) (h : abi ≠ []) : pathJoin libs abi ≠ [] := by
  unfold pathJoin
  split
  · exact h
  · split
    · simp [h]
    · simp

theorem pathJoin_getLast? (libs abi : Str) (h : abi ≠ []) :
    (pathJoin libs abi).getLast? = abi.getLast? := by
  unfold pathJoin
  split
  · rfl
  · split
    · exact getLast?_append_of_ne_nil libs abi h
    · rw [getLast?_append_of_ne_nil libs ('/' :: abi) (by simp)]
      exact getLast?_append_of_ne_nil ['/'] abi h

theorem pathJoin_ne_of_ne (libs a b : Str) (h : a ≠ b) : pathJoin libs a ≠ pathJoin libs b := by
  unfold pathJoin
  by_cases h1 : libs = []
  · rw [if_pos h1, if_pos h1]
    exact h
  · rw [if_neg h1, if_neg h1]
    by_cases h2 : libs.getLast? = some '/'
    · rw [if_pos h2, if_pos h2]
      intro he
      exact h (List.append_cancel_left he)
    · rw [if_neg h2, if_neg h2]
      intro he
      have h3 := List.append_cancel_left he
      injection h3 with _ h4
      exact h h4

theorem pathJoin_ne_of_base_ne (f1 f2 s : Str)
    (hf1 : f1 ≠ []) (hl1 : f1.getLast? ≠ some '/')
    (hf2 : f2 ≠ []) (hl2 : f2.getLast? ≠ some '/')
    (hne : f1 ≠ f2) : pathJoin f1 s ≠ pathJoin f2 s := by
  rw [pathJoin_eq_append f1 s hf1 hl1, pathJoin_eq_append f2 s hf2 hl2]
  intro he
  exact hne (List.append_cancel_right he)

theorem pathJoin_ne_of_suffix_ne (f1 f2 s t : Str)
    (hf1 : f1 ≠ []) (hl1 : f1.getLast? ≠ some '/')
    (hf2 : f2 ≠ []) (hl2 : f2.getLast? ≠ some '/')
    (hs : '/' ∉ s) (ht : '/' ∉ t) (hst : s ≠ t) :
    pathJoin f1 s ≠ pathJoin f2 t := by
  rw [pathJoin_eq_append f1 s hf1 hl1, pathJoin_eq_append f2 t hf2 hl2]
  exact append_slash_ne s t hs ht hst f1 f2

theorem mem_filter_ne (fs : FileSys) (p r : Str) (hr : r ∈ fs) (hne : r ≠ p) :
    r ∈ fs.filter (fun q => decide (q ≠ p)) :=
  List.mem_filter.mpr ⟨hr, by simp [hne]⟩

theorem mem_copyfileTo_self (fs : FileSys) (p : Str) : p ∈ copyfileTo fs p :=
  List.mem_cons_self p _

theorem mem_copyfileTo_ne (fs : FileSys) (p r : Str) (hr : r ∈ fs) (hne : r ≠ p) :
    r ∈ copyfileTo fs p :=
  List.mem_cons_of_mem p (mem_filter_ne fs p r hr hne)

/-! ### Per-folder behavior of the installer -/

theorem delete_existing_gadget_preserves (fs fs1 : FileSys) (f : Str) (n : Nat)
    (hdel : delete_existing_gadget fs f n = Except.ok fs1)
    (r : Str) (hr : r ∈ fs)
    (h1 : r ≠ pathJoin f DEFAULT_GADGET_NAME)
    (h2 : r ≠ pathJoin f DEFAULT_CONFIG_NAME)
    (h3 : r ≠ pathJoin f DEFAULT_HOOKFILE_NAME) :
    r ∈ fs1 := by
  simp only [delete_existing_gadget] at hdel
  have hrA : r ∈ (if isfile fs (pathJoin f DEFAULT_GADGET_NAME) then
      fs.filter (fun q => decide (q ≠ pathJoin f DEFAULT_GADGET_NAME)) else fs) := by
    split
    · exact mem_filter_ne _ _ _ hr h1
    · exact hr
  by_cases hn : n ≠ 0
  · rw [if_pos hn] at hdel
    by_cases hcfg : pathJoin f DEFAULT_CONFIG_NAME ∈
        (if isfile fs (pathJoin f DEFAULT_GADGET_NAME) then
          fs.filter (fun q => decide (q ≠ pathJoin f DEFAULT_GADGET_NAME)) else fs)
    · simp only [osRemove_mem _ _ hcfg] at hdel
      by_cases hhk : pathJoin f DEFAULT_HOOKFILE_NAME ∈
          ((if isfile fs (pathJoin f DEFAULT_GADGET_NAME) then
            fs.filter (fun q => decide (q ≠ pathJoin f DEFAULT_GADGET_NAME)) else fs).filter
            (fun q => decide (q ≠ pathJoin f DEFAULT_CONFIG_NAME)))
      · rw [osRemove_mem _ _ hhk] at hdel
        injection hdel with hh
        subst hh
        exact mem_filter_ne _ _ _ (mem_filter_ne _ _ _ hrA h2) h3
      · rw [osRemove_not_mem _ _ hhk] at hdel
        exact absurd hdel (by simp)
    · simp only [osRemove_not_mem _ _ hcfg] at hdel
      exact absurd hdel (by simp)
  · rw [if_neg hn] at hdel
    injection hdel with hh
    subst hh
    exact hrA

theorem config_target_eq (f : Str) (hf : f ≠ []) (hl : f.getLast? ≠ some '/') :
    replaceAll ".so".toList ".config.so".toList (pathJoin f DEFAULT_GADGET_NAME)
      = replaceAll ".so".toList ".config.so".toList f ++ '/' :: DEFAULT_CONFIG_NAME := by
  rw [pathJoin_eq_append f _ hf hl]
  rw [replaceAll_append_slash ".so".toList ".config.so".toList (by decide) (by decide)
    f.length f DEFAULT_GADGET_NAME le_rfl]
  rw [(by decide : replaceAll ".so".toList ".config.so".toList DEFAULT_GADGET_NAME
    = DEFAULT_CONFIG_NAME)]

theorem autoload_target_eq (f : Str) (hf : f ≠ []) (hl : f.getLast? ≠ some '/')
    (hnog : ¬ DEFAULT_GADGET_NAME <:+: f) :
    replaceAll DEFAULT_GADGET_NAME DEFAULT_HOOKFILE_NAME (pathJoin f DEFAULT_GADGET_NAME)
      = pathJoin f DEFAULT_HOOKFILE_NAME := by
  rw [pathJoin_eq_append f _ hf hl]
  rw [replaceAll_append_slash DEFAULT_GADGET_NAME DEFAULT_HOOKFILE_NAME (by decide) (by decide)
    f.length f DEFAULT_GADGET_NAME le_rfl]
  rw [replaceAll_eq_self _ _ f hnog]
  rw [(by decide : replaceAll DEFAULT_GADGET_NAME DEFAULT_HOOKFILE_NAME DEFAULT_GADGET_NAME
    = DEFAULT_HOOKFILE_NAME)]
  rw [← pathJoin_eq_append f _ hf hl]

theorem insert_frida_lib_folder_ok_mem (fs fsOut : FileSys) (f : Str) (hc ha : Bool)
    (hrun : insert_frida_lib_folder fs f hc ha = Except.ok fsOut)
    (hf : f ≠ []) (hl : f.getLast? ≠ some '/')
    (hnog : ¬ DEFAULT_GADGET_NAME <:+: f) :
    pathJoin f DEFAULT_GADGET_NAME ∈ fsOut ∧
    (ha = true → pathJoin f DEFAULT_HOOKFILE_NAME ∈ fsOut) := by
  simp only [insert_frida_lib_folder] at hrun
  rcases hdel : delete_existing_gadget fs f
      (if hc && ha then CONFIG_BIT ||| AUTOLOAD_BIT
       else if hc && !ha then CONFIG_BIT
       else if ha && !hc then AUTOLOAD_BIT
       else 0) with e | fs1
  · rw [hdel] at hrun
    exact absurd hrun (by simp)
  · rw [hdel] at hrun
    simp only [] at hrun
    injection hrun with hout
    subst hout
    have hGC : pathJoin f DEFAULT_GADGET_NAME
        ≠ replaceAll ".so".toList ".config.so".toList (pathJoin f DEFAULT_GADGET_NAME) := by
      rw [config_target_eq f hf hl, pathJoin_eq_append f _ hf hl]
      exact append_slash_ne _ _ (by decide) (by decide) (by decide) f _
    have hGH : pathJoin f DEFAULT_GADGET_NAME
        ≠ replaceAll DEFAULT_GADGET_NAME DEFAULT_HOOKFILE_NAME (pathJoin f DEFAULT_GADGET_NAME) := by
      rw [autoload_target_eq f hf hl hnog]
      exact pathJoin_ne_of_ne f _ _ (by decide)
    have hmemG2 : pathJoin f DEFAULT_GADGET_NAME
        ∈ copyfileTo fs1 (pathJoin f DEFAULT_GADGET_NAME) := mem_copyfileTo_self _ _
    have hmemG3 : pathJoin f DEFAULT_GADGET_NAME ∈
        (if hc then
          copyfileTo (copyfileTo fs1 (pathJoin f DEFAULT_GADGET_NAME))
            (replaceAll ".so".toList ".config.so".toList (pathJoin f DEFAULT_GADGET_NAME))
        else copyfileTo fs1 (pathJoin f DEFAULT_GADGET_NAME)) := by
      split
      · exact mem_copyfileTo_ne _ _ _ hmemG2 hGC
      · exact hmemG2
    constructor
    · split
      · exact mem_copyfileTo_ne _ _ _ hmemG3 hGH
      · exact hmemG3
    · intro hha
      rw [hha]
      simp only [if_true]
      rw [autoload_target_eq f hf hl hnog]
      exact mem_copyfileTo_self _ _

theorem insert_frida_lib_folder_preserves (fs fsOut : FileSys) (f : Str) (hc ha : Bool)
    (hrun : insert_frida_lib_folder fs f hc ha = Except.ok fsOut)
    (r : Str) (hr : r ∈ fs)
    (h1 : r ≠ pathJoin f DEFAULT_GADGET_NAME)
    (h2 : r ≠ pathJoin f DEFAULT_CONFIG_NAME)
    (h3 : r ≠ pathJoin f DEFAULT_HOOKFILE_NAME)
    (h4 : r ≠ replaceAll ".so".toList ".config.so".toList (pathJoin f DEFAULT_GADGET_NAME))
    (h5 : r ≠ replaceAll DEFAULT_GADGET_NAME DEFAULT_HOOKFILE_NAME (pathJoin f DEFAULT_GADGET_NAME)) :
    r ∈ fsOut := by
  simp only [insert_frida_lib_folder] at hrun
  rcases hdel : delete_existing_gadget fs f
      (if hc && ha then CONFIG_BIT ||| AUTOLOAD_BIT
       else if hc && !ha then CONFIG_BIT
       else if ha && !hc then AUTOLOAD_BIT
       else 0) with e | fs1
  · rw [hdel] at hrun
    exact absurd hrun (by simp)
  · rw [hdel] at hrun
    simp only [] at hrun
    injection hrun with hout
    subst hout
    have hr1 : r ∈ fs1 := delete_existing_gadget_preserves fs fs1 f _ hdel r hr h1 h2 h3
    have hr2 : r ∈ copyfileTo fs1 (pathJoin f DEFAULT_GADGET_NAME) :=
      mem_copyfileTo_ne _ _ _ hr1 h1
    have hr3 : r ∈ (if hc then
        copyfileTo (copyfileTo fs1 (pathJoin f DEFAULT_GADGET_NAME))
          (replaceAll ".so".toList ".config.so".toList (pathJoin f DEFAULT_GADGET_NAME))
      else copyfileTo fs1 (pathJoin f DEFAULT_GADGET_NAME)) := by
      split
      · exact mem_copyfileTo_ne _ _ _ hr2 h4
      · exact hr2
    split
    · exact mem_copyfileTo_ne _ _ _ hr3 h5
    · exact hr3

theorem installFolders_single_mem (fs fsOut : FileSys) (libs abi : Str) (hc ha : Bool)
    (habi : abi ≠ []) (hal : abi.getLast? ≠ some '/')
    (hnog : ¬ DEFAULT_GADGET_NAME <:+: pathJoin libs abi)
    (hrun : installFolders fs [pathJoin libs abi] hc ha = Except.ok fsOut) :
    pathJoin (pathJoin libs abi) DEFAULT_GADGET_NAME ∈ fsOut ∧
    (ha = true → pathJoin (pathJoin libs abi) DEFAULT_HOOKFILE_NAME ∈ fsOut) := by
  simp only [installFolders] at hrun
  rcases hstep : insert_frida_lib_folder fs (pathJoin libs abi) hc ha with e | fs1
  · rw [hstep] at hrun
    exact absurd hrun (by simp)
  · rw [hstep] at hrun
    injection hrun with hout
    subst hout
    exact insert_frida_lib_folder_ok_mem fs fs1 _ hc ha hstep
      (pathJoin_ne_nil libs abi habi)
      (by rw [pathJoin_getLast? libs abi habi]; exact hal)
      hnog

theorem installFolders_pair_mem (fs fsOut : FileSys) (libs : Str) (hc ha : Bool)
    (hnog1 : ¬ DEFAULT_GADGET_NAME <:+: pathJoin libs "armeabi".toList)
    (hnog2 : ¬ DEFAULT_GADGET_NAME <:+: pathJoin libs "armeabi-v7a".toList)
    (hrun : installFolders fs
      [pathJoin libs "armeabi".toList, pathJoin libs "armeabi-v7a".toList] hc ha
        = Except.ok fsOut) :
    (pathJoin (pathJoin libs "armeabi".toList) DEFAULT_GADGET_NAME ∈ fsOut ∧
      (ha = true → pathJoin (pathJoin libs "armeabi".toList) DEFAULT_HOOKFILE_NAME ∈ fsOut)) ∧
    (pathJoin (pathJoin libs "armeabi-v7a".toList) DEFAULT_GADGET_NAME ∈ fsOut ∧
      (ha = true →
        pathJoin (pathJoin libs "armeabi-v7a".toList) DEFAULT_HOOKFILE_NAME ∈ fsOut)) := by
  have hf1 : pathJoin libs "armeabi".toList ≠ [] := pathJoin_ne_nil _ _ (by decide)
  have hl1 : (pathJoin libs "armeabi".toList).getLast? ≠ some '/' := by
    rw [pathJoin_getLast? _ _ (by decide)]
    decide
  have hf2 : pathJoin libs "armeabi-v7a".toList ≠ [] := pathJoin_ne_nil _ _ (by decide)
  have hl2 : (pathJoin libs "armeabi-v7a".toList).getLast? ≠ some '/' := by
    rw [pathJoin_getLast? _ _ (by decide)]
    decide
  have hff : pathJoin libs "armeabi".toList ≠ pathJoin libs "armeabi-v7a".toList :=
    pathJoin_ne_of_ne libs _ _ (by decide)
  simp only [installFolders] at hrun
  rcases h1 : insert_frida_lib_folder fs (pathJoin libs "armeabi".toList) hc ha with e | fsA
  · simp only [h1] at hrun
    exact absurd hrun (by simp)
  · simp only [h1] at hrun
    rcases h2 : insert_frida_lib_folder fsA (pathJoin libs "armeabi-v7a".toList) hc ha
      with e | fsB
    · simp only [h2] at hrun
      exact absurd hrun (by simp)
    · simp only [h2] at hrun
      injection hrun with hout
      subst hout
      have m1 := insert_frida_lib_folder_ok_mem fs fsA _ hc ha h1 hf1 hl1 hnog1
      have m2 := insert_frida_lib_folder_ok_mem fsA _ _ hc ha h2 hf2 hl2 hnog2
      refine ⟨⟨?_, ?_⟩, m2⟩
      · refine insert_frida_lib_folder_preserves fsA _ _ hc ha h2 _ m1.1
          (pathJoin_ne_of_base_ne _ _ _ hf1 hl1 hf2 hl2 hff)
          (pathJoin_ne_of_suffix_ne _ _ _ _ hf1 hl1 hf2 hl2
            (by decide) (by decide) (by decide))
          (pathJoin_ne_of_suffix_ne _ _ _ _ hf1 hl1 hf2 hl2
            (by decide) (by decide) (by decide))
          ?_ ?_
        · rw [config_target_eq _ hf2 hl2, pathJoin_eq_append _ _ hf1 hl1]
          exact append_slash_ne _ _ (by decide) (by decide) (by decide) _ _
        · rw [autoload_target_eq _ hf2 hl2 hnog2]
          exact pathJoin_ne_of_suffix_ne _ _ _ _ hf1 hl1 hf2 hl2
            (by decide) (by decide) (by decide)
      · intro hha
        refine insert_frida_lib_folder_preserves fsA _ _ hc ha h2 _ (m1.2 hha)
          (pathJoin_ne_of_suffix_ne _ _ _ _ hf1 hl1 hf2 hl2
            (by decide) (by decide) (by decide))
          (pathJoin_ne_of_suffix_ne _ _ _ _ hf1 hl1 hf2 hl2
            (by decide) (by decide) (by decide))
          (pathJoin_ne_of_base_ne _ _ _ hf1 hl1 hf2 hl2 hff)
          ?_ ?_
        · rw [config_target_eq _ hf2 hl2, pathJoin_eq_append _ _ hf1 hl1]
          exact append_slash_ne _ _ (by decide) (by decide) (by decide) _ _
        · rw [autoload_target_eq _ hf2 hl2 hnog2]
          exact pathJoin_ne_of_base_ne _ _ _ hf1 hl1 hf2 hl2 hff

/-! ### C10: fixed installed names matching the injected loader -/

/-- C10: for every successful installer run (the function returned `True`),
every planned architecture directory receives the payload under the fixed
target name `libfrida-gadget.so`, and — when an auto-load script is
supplied — the auto-load companion under the fixed name `libhook.js.so`,
regardless of the source payload file name; and that fixed payload name is
exactly `lib` ++ the default library name the injected static initializer
loads ++ `.so`.  The hypothesis `hb` excludes tree roots whose own path
contains the literal `libfrida-gadget.so`, on which the source's whole-path
`str.replace` would relocate the companion. -/
theorem insert_frida_lib_fixed_target_names
    (fs fsOut : FileSys) (basePath gadgetPath : Str) (hasConfig hasAutoload : Bool)
    (hrun : insert_frida_lib fs basePath gadgetPath hasConfig hasAutoload
      = Except.ok (true, fsOut))
    (hb : ∀ f ∈ create_lib_arch_folders basePath (get_arch_by_gadget gadgetPath),
      ¬ DEFAULT_GADGET_NAME <:+: f) :
    (∀ f ∈ create_lib_arch_folders basePath (get_arch_by_gadget gadgetPath),
      pathJoin f DEFAULT_GADGET_NAME ∈ fsOut ∧
      (hasAutoload = true → pathJoin f DEFAULT_HOOKFILE_NAME ∈ fsOut)) ∧
    DEFAULT_GADGET_NAME = "lib".toList ++ defaultFridaLibName ++ ".so".toList := by
  refine ⟨?_, by decide⟩
  simp only [insert_frida_lib] at hrun
  by_cases hA : get_arch_by_gadget gadgetPath = some ARCH_ARM
  · have hL : create_lib_arch_folders basePath (get_arch_by_gadget gadgetPath)
        = [pathJoin (pathJoin basePath "lib/".toList) "armeabi".toList,
           pathJoin (pathJoin basePath "lib/".toList) "armeabi-v7a".toList] := by
      simp only [create_lib_arch_folders]
      rw [if_pos hA]
    rw [hL] at hrun hb ⊢
    rw [if_neg (by simp)] at hrun
    rcases hI : installFolders fs
        [pathJoin (pathJoin basePath "lib/".toList) "armeabi".toList,
         pathJoin (pathJoin basePath "lib/".toList) "armeabi-v7a".toList]
        hasConfig hasAutoload with e | fsO
    · simp only [hI] at hrun
      exact absurd hrun (by simp)
    · simp only [hI] at hrun
      injection hrun with hpair
      injection hpair with _ hfs
      subst hfs
      have hm := installFolders_pair_mem fs fsO (pathJoin basePath "lib/".toList)
        hasConfig hasAutoload (hb _ (by simp)) (hb _ (by simp)) hI
      intro f hf
      rcases hf with _ | ⟨_, hf⟩
      · exact hm.1
      · rcases hf with _ | ⟨_, hf⟩
        · exact hm.2
        · exact absurd hf (List.not_mem_nil f)
  · by_cases hA64 : get_arch_by_gadget gadgetPath = some ARCH_ARM64
    · have hL : create_lib_arch_folders basePath (get_arch_by_gadget gadgetPath)
          = [pathJoin (pathJoin basePath "lib/".toList) "arm64-v8a".toList] := by
        simp only [create_lib_arch_folders]
        rw [if_neg hA, if_pos hA64]
      rw [hL] at hrun hb ⊢
      rw [if_neg (by simp)] at hrun
      rcases hI : installFolders fs
          [pathJoin (pathJoin basePath "lib/".toList) "arm64-v8a".toList]
          hasConfig hasAutoload with e | fsO
      · simp only [hI] at hrun
        exact absurd hrun (by simp)
      · simp only [hI] at hrun
        injection hrun with hpair
        injection hpair with _ hfs
        subst hfs
        have hm := installFolders_single_mem fs fsO (pathJoin basePath "lib/".toList)
          "arm64-v8a".toList hasConfig hasAutoload (by decide) (by decide)
          (hb _ (by simp)) hI
        intro f hf
        rcases hf with _ | ⟨_, hf⟩
        · exact hm
        · exact absurd hf (List.not_mem_nil f)
    · by_cases hX86 : get_arch_by_gadget gadgetPath = some ARCH_X86
      · have hL : create_lib_arch_folders basePath (get_arch_by_gadget gadgetPath)
            = [pathJoin (pathJoin basePath "lib/".toList) "x86".toList] := by
          simp only [create_lib_arch_folders]
          rw [if_neg hA, if_neg hA64, if_pos hX86]
        rw [hL] at hrun hb ⊢
        rw [if_neg (by simp)] at hrun
        rcases hI : installFolders fs
            [pathJoin (pathJoin basePath "lib/".toList) "x86".toList]
            hasConfig hasAutoload with e | fsO
        · simp only [hI] at hrun
          exact absurd hrun (by simp)
        · simp only [hI] at hrun
          injection hrun with hpair
          injection hpair with _ hfs
          subst hfs
          have hm := installFolders_single_mem fs fsO (pathJoin basePath "lib/".toList)
            "x86".toList hasConfig hasAutoload (by decide) (by decide)
            (hb _ (by simp)) hI
          intro f hf
          rcases hf with _ | ⟨_, hf⟩
          · exact hm
          · exact absurd hf (List.not_mem_nil f)
      · by_cases hX64 : get_arch_by_gadget gadgetPath = some ARCH_X64
        · have hL : create_lib_arch_folders basePath (get_arch_by_gadget gadgetPath)
              = [pathJoin (pathJoin basePath "lib/".toList) "x86_64".toList] := by
            simp only [create_lib_arch_folders]
            rw [if_neg hA, if_neg hA64, if_neg hX86, if_pos hX64]
          rw [hL] at hrun hb ⊢
          rw [if_neg (by simp)] at hrun
          rcases hI : installFolders fs
              [pathJoin (pathJoin basePath "lib/".toList) "x86_64".toList]
              hasConfig hasAutoload with e | fsO
          · simp only [hI] at hrun
            exact absurd hrun (by simp)
          · simp only [hI] at hrun
            injection hrun with hpair
            injection hpair with _ hfs
            subst hfs
            have hm := installFolders_single_mem fs fsO (pathJoin basePath "lib/".toList)
              "x86_64".toList hasConfig hasAutoload (by decide) (by decide)
              (hb _ (by simp)) hI
            intro f hf
            rcases hf with _ | ⟨_, hf⟩
            · exact hm
            · exact absurd hf (List.not_mem_nil f)
        · have hL : create_lib_arch_folders basePath (get_arch_by_gadget gadgetPath)
              = [] := by
            simp only [create_lib_arch_folders]
            rw [if_neg hA, if_neg hA64, if_neg hX86, if_neg hX64]
          rw [hL] at hrun
          rw [if_pos rfl] at hrun
          injection hrun with hpair
          injection hpair with hbool _
          exact absurd hbool (by simp)

/-- Pre-state for the C10 witness: both companions previously installed in
the planned x86 folder (so the removal step succeeds). -/
def exC10Fs : FileSys :=
  ["/app/lib/x86/libfrida-gadget.config.so".toList, "/app/lib/x86/libhook.js.so".toList]

/-- C10 witness: concrete successful run supplying an auto-load script. -/
theorem insert_frida_lib_fixed_target_names_witness :
    pathJoin "/app/lib/x86".toList DEFAULT_GADGET_NAME
      ∈ (["/app/lib/x86/libhook.js.so".toList,
          "/app/lib/x86/libfrida-gadget.so".toList] : FileSys) ∧
    (true = true → pathJoin "/app/lib/x86".toList DEFAULT_HOOKFILE_NAME
      ∈ (["/app/lib/x86/libhook.js.so".toList,
          "/app/lib/x86/libfrida-gadget.so".toList] : FileSys)) :=
  (insert_frida_lib_fixed_target_names exC10Fs
      ["/app/lib/x86/libhook.js.so".toList, "/app/lib/x86/libfrida-gadget.so".toList]
      "/app".toList "frida-x86.so".toList false true rfl
      (by decide)).1 "/app/lib/x86".toList (by decide)

end Apkpatcher
